import Mathlib

/-!
Verification of the boost-vault Singularity mechanism (src/singularity.hpp).

The C++ source provides, per managed type `T`:
  - `singularity_state<T>::created : bool` — one flag keyed only by `T`
    (initialised to `false`);
  - `singularity_instance<T, M>::instance_ptr : M<T>::ptr_type` — one pointer
    slot keyed by `(T, M)` where `M` is the threading (locking) policy
    (initialised to `NULL`);
  - `singularity<T, M, A0..An>::create(a0..an)` — throws
    `singularity_already_created` when the flag is set (via
    `detect_already_created`), otherwise does
    `instance_ptr = new T(a0..an); created = true; return *instance_ptr;`;
  - `singularity<T, M, A0..An>::destroy()` — throws
    `singularity_already_destroyed` when the flag is clear, then
    `singularity_destroy_on_incorrect_threading` when the slot for this
    policy is `NULL`, otherwise does
    `delete instance_ptr; instance_ptr = NULL; created = false;`.

The embedding below models one managed type `T`.  Its per-type state is the
flag together with the family of slots, indexed by an abstract policy type
`P` (the source instantiates `P` with `single_threaded` / `multi_threaded`
or any user policy; the statics `singularity_state<T>` and
`singularity_instance<T, M>` do not depend on the constructor-argument
parameters `A0..An`, which is why the state below carries no argument-list
index and why `destroy` takes none).  Heap allocation (`new` / `delete`) is
modelled by an explicit heap: a next-fresh-address counter and a memory map;
an address holds `some v` while the object constructed there is alive.  A
constructor that can throw is modelled as a function into `Option T`
(`none` = the constructor throws); the propagated exception appears as the
`constructor_exception` outcome.  C++ exceptions become `Except` results;
an exception leaves the static state as it was, which the `stepCreate` /
`stepDestroy` functions make explicit.
-/

namespace Singularity

/-- Outcomes thrown by the mechanism: the three exception types of the
source (`singularity_already_created`, `singularity_already_destroyed`,
`singularity_destroy_on_incorrect_threading`) plus the propagated exception
of the managed type's own constructor. -/
inductive SingErr where
  | already_created
  | already_destroyed
  | destroy_on_incorrect_threading
  | constructor_exception
deriving DecidableEq, Repr

/-- The per-type static state: `created` models
`singularity_state<T>::created` (keyed only by `T`), and `instance_ptr p`
models `singularity_instance<T, M>::instance_ptr` for policy `M = p`
(keyed by the pair `(T, M)`; `none` models the `NULL` pointer). -/
structure SingState (P : Type) where
  created : Bool
  instance_ptr : P → Option Nat

/-- The heap backing `new` / `delete`: `next` is the next fresh address and
`mem a = some v` says the object `v` is alive at address `a`. -/
structure Heap (T : Type) where
  next : Nat
  mem : Nat → Option T

/-- A heap is well formed when no address at or above the fresh-address
counter is occupied; every heap the mechanism produces from the initial
heap is of this shape. -/
def Heap.wf {T : Type} (h : Heap T) : Prop :=
  ∀ a, h.next ≤ a → h.mem a = none

/-- Static initialisation: `created = false`, every slot `NULL`. -/
def initState {P : Type} : SingState P :=
  ⟨false, fun _ => none⟩

/-- The initial heap: nothing allocated. -/
def initHeap {T : Type} : Heap T :=
  ⟨0, fun _ => none⟩

/-- Mirror of `singularity<T,M,...>::detect_already_created`: reports the
`already_created` exception exactly when `created != false`. -/
def detect_already_created {P : Type} (st : SingState P) : Option SingErr :=
  if st.created ≠ false then some SingErr.already_created else none

/-- Mirror of `singularity<T,M,A0..An>::create(a0..an)` for policy `p` and
constructor arguments `args` (of an arbitrary argument-list type `A`,
with `ctor` the overload of `T`'s constructor selected by `A`;
`ctor args = none` models that constructor throwing).  On success it
returns the new static state, the new heap and the address of the new
instance (the returned reference). -/
def create {T P A : Type} [DecidableEq P] (ctor : A → Option T) (p : P)
    (args : A) (st : SingState P) (h : Heap T) :
    Except SingErr (SingState P × Heap T × Nat) :=
  match detect_already_created st with
  | some e => Except.error e
  | none =>
    match ctor args with
    | none => Except.error SingErr.constructor_exception
    | some v =>
      Except.ok (⟨true, Function.update st.instance_ptr p (some h.next)⟩,
        ⟨h.next + 1, Function.update h.mem h.next (some v)⟩, h.next)

/-- Mirror of `singularity<T,M,A0..An>::destroy()` for policy `p`.  The
body reads only `singularity_state<T>` and `singularity_instance<T,M>`,
which do not depend on the argument-list parameters, so the model takes
none. -/
def destroy {T P : Type} [DecidableEq P] (p : P) (st : SingState P)
    (h : Heap T) : Except SingErr (SingState P × Heap T) :=
  if st.created ≠ true then Except.error SingErr.already_destroyed
  else
    match st.instance_ptr p with
    | none => Except.error SingErr.destroy_on_incorrect_threading
    | some a =>
      Except.ok (⟨false, Function.update st.instance_ptr p none⟩,
        ⟨h.next, Function.update h.mem a none⟩)

/-- One `create` call as a state transformer: an exception propagates to
the caller and leaves the static state and the heap as they were. -/
def stepCreate {T P A : Type} [DecidableEq P] (ctor : A → Option T) (p : P)
    (args : A) (s : SingState P × Heap T) : SingState P × Heap T :=
  match create ctor p args s.1 s.2 with
  | Except.ok r => (r.1, r.2.1)
  | Except.error _ => s

/-- One `destroy` call as a state transformer: an exception leaves the
static state and the heap as they were. -/
def stepDestroy {T P : Type} [DecidableEq P] (p : P)
    (s : SingState P × Heap T) : SingState P × Heap T :=
  match destroy p s.1 s.2 with
  | Except.ok r => r
  | Except.error _ => s

/-- The states reachable from static initialisation by any sequence of
`create` / `destroy` calls, with any policies, any argument-list types and
any (possibly throwing) constructor overloads. -/
inductive Reach {T P : Type} [DecidableEq P] : SingState P × Heap T → Prop where
  | init : Reach (initState, initHeap)
  | create_step : ∀ {s : SingState P × Heap T} {A : Type}
      (ctor : A → Option T) (p : P) (args : A),
      Reach s → Reach (stepCreate ctor p args s)
  | destroy_step : ∀ {s : SingState P × Heap T} (p : P),
      Reach s → Reach (stepDestroy p s)

/-- The lifecycle invariant.  Either no instance is alive: the flag is
clear, every slot is `NULL` and the heap holds no object; or exactly one
is: the flag is set, exactly one slot (that of the creating policy) holds
an address, that address holds the one live object, and no other address
is occupied.  The heap is well formed throughout. -/
def Inv {T P : Type} (s : SingState P × Heap T) : Prop :=
  s.2.wf ∧
    ((s.1.created = false ∧ (∀ p, s.1.instance_ptr p = none) ∧
        ∀ a, s.2.mem a = none) ∨
      (s.1.created = true ∧ ∃ p a, s.1.instance_ptr p = some a ∧
        (∀ q, q ≠ p → s.1.instance_ptr q = none) ∧
        s.2.mem a ≠ none ∧ ∀ b, b ≠ a → s.2.mem b = none))

/-- Concrete demonstration state used to instantiate the theorems: the
state after one successful `create` (managed type `Nat`, policies drawn
from `Bool`, the zero-argument constructor overload returning `42`). -/
def demoAlive : SingState Bool × Heap Nat :=
  stepCreate (fun _ : Unit => some 42) true () (initState, initHeap)

theorem create_eq_ok {T P A : Type} [DecidableEq P] (ctor : A → Option T)
    (p : P) (args : A) (st : SingState P) (h : Heap T) (v : T)
    (hflag : st.created = false) (hc : ctor args = some v) :
    create ctor p args st h =
      Except.ok (⟨true, Function.update st.instance_ptr p (some h.next)⟩,
        ⟨h.next + 1, Function.update h.mem h.next (some v)⟩, h.next) := by
  simp [create, detect_already_created, hflag, hc]

theorem create_eq_error {T P A : Type} [DecidableEq P] (ctor : A → Option T)
    (p : P) (args : A) (st : SingState P) (h : Heap T)
    (hflag : st.created = true) :
    create ctor p args st h = Except.error SingErr.already_created := by
  simp [create, detect_already_created, hflag]

theorem destroy_eq_ok {T P : Type} [DecidableEq P] (p : P) (st : SingState P)
    (h : Heap T) (a : Nat) (hflag : st.created = true)
    (hslot : st.instance_ptr p = some a) :
    destroy p st h =
      Except.ok (⟨false, Function.update st.instance_ptr p none⟩,
        ⟨h.next, Function.update h.mem a none⟩) := by
  simp [destroy, hflag, hslot]

theorem inv_init {T P : Type} :
    Inv ((initState, initHeap) : SingState P × Heap T) :=
  ⟨fun _ _ => rfl, Or.inl ⟨rfl, fun _ => rfl, fun _ => rfl⟩⟩

theorem inv_stepCreate {T P A : Type} [DecidableEq P] (ctor : A → Option T)
    (p : P) (args : A) (s : SingState P × Heap T) (hinv : Inv s) :
    Inv (stepCreate ctor p args s) := by
  obtain ⟨hwf, hcases⟩ := hinv
  by_cases hflag : s.1.created = false
  · cases hc : ctor args with
    | none =>
      have hstep : stepCreate ctor p args s = s := by
        simp [stepCreate, create, detect_already_created, hflag, hc]
      rw [hstep]; exact ⟨hwf, hcases⟩
    | some v =>
      obtain ⟨hslots, hmem⟩ :
          (∀ q, s.1.instance_ptr q = none) ∧ ∀ a, s.2.mem a = none := by
        rcases hcases with ⟨_, h1, h2⟩ | ⟨htrue, _⟩
        · exact ⟨h1, h2⟩
        · rw [hflag] at htrue; cases htrue
      have hstep : stepCreate ctor p args s =
          (⟨true, Function.update s.1.instance_ptr p (some s.2.next)⟩,
            ⟨s.2.next + 1, Function.update s.2.mem s.2.next (some v)⟩) := by
        simp [stepCreate, create_eq_ok ctor p args s.1 s.2 v hflag hc]
      rw [hstep]
      refine ⟨?_, Or.inr ⟨rfl, p, s.2.next, ?_, ?_, ?_, ?_⟩⟩
      · intro a ha
        have ha' : s.2.next + 1 ≤ a := ha
        have hne : a ≠ s.2.next := by omega
        show Function.update s.2.mem s.2.next (some v) a = none
        rw [Function.update_noteq hne]
        exact hmem a
      · show Function.update s.1.instance_ptr p (some s.2.next) p = some s.2.next
        rw [Function.update_same]
      · intro q hq
        show Function.update s.1.instance_ptr p (some s.2.next) q = none
        rw [Function.update_noteq hq]
        exact hslots q
      · show Function.update s.2.mem s.2.next (some v) s.2.next ≠ none
        rw [Function.update_same]; simp
      · intro b hb
        show Function.update s.2.mem s.2.next (some v) b = none
        rw [Function.update_noteq hb]
        exact hmem b
  · have hflag' : s.1.created = true := by
      cases hcr : s.1.created with
      | false => exact absurd hcr hflag
      | true => rfl
    have hstep : stepCreate ctor p args s = s := by
      simp [stepCreate, create, detect_already_created, hflag']
    rw [hstep]; exact ⟨hwf, hcases⟩

theorem inv_stepDestroy {T P : Type} [DecidableEq P] (p : P)
    (s : SingState P × Heap T) (hinv : Inv s) : Inv (stepDestroy p s) := by
  obtain ⟨hwf, hcases⟩ := hinv
  rcases hcases with ⟨hflag, hslots, hmem⟩ |
    ⟨hflag, p0, a0, hp0, hothers, halive, honly⟩
  · have hstep : stepDestroy p s = s := by
      simp [stepDestroy, destroy, hflag]
    rw [hstep]; exact ⟨hwf, Or.inl ⟨hflag, hslots, hmem⟩⟩
  · cases hsp : s.1.instance_ptr p with
    | none =>
      have hstep : stepDestroy p s = s := by
        simp [stepDestroy, destroy, hflag, hsp]
      rw [hstep]
      exact ⟨hwf, Or.inr ⟨hflag, p0, a0, hp0, hothers, halive, honly⟩⟩
    | some a =>
      have hpp0 : p = p0 := by
        by_contra hne
        rw [hothers p hne] at hsp; cases hsp
      subst hpp0
      have haa0 : a = a0 := by
        rw [hsp] at hp0; exact Option.some.inj hp0
      subst haa0
      have hstep : stepDestroy p s =
          (⟨false, Function.update s.1.instance_ptr p none⟩,
            ⟨s.2.next, Function.update s.2.mem a none⟩) := by
        simp [stepDestroy, destroy_eq_ok p s.1 s.2 a hflag hsp]
      rw [hstep]
      refine ⟨?_, Or.inl ⟨rfl, ?_, ?_⟩⟩
      · intro b hb
        have hb' : s.2.next ≤ b := hb
        show Function.update s.2.mem a none b = none
        by_cases hba : b = a
        · subst hba; rw [Function.update_same]
        · rw [Function.update_noteq hba]; exact hwf b hb'
      · intro q
        show Function.update s.1.instance_ptr p none q = none
        by_cases hq : q = p
        · subst hq; rw [Function.update_same]
        · rw [Function.update_noteq hq]; exact hothers q hq
      · intro b
        show Function.update s.2.mem a none b = none
        by_cases hba : b = a
        · subst hba; rw [Function.update_same]
        · rw [Function.update_noteq hba]; exact honly b hba

theorem reach_inv {T P : Type} [DecidableEq P] (s : SingState P × Heap T)
    (hr : Reach s) : Inv s := by
  induction hr with
  | init => exact inv_init
  | create_step ctor p args _ ih => exact inv_stepCreate ctor p args _ ih
  | destroy_step p _ ih => exact inv_stepDestroy p _ ih

theorem create_ok_inversion {T P A : Type} [DecidableEq P]
    (ctor : A → Option T) (p : P) (args : A) (st st' : SingState P)
    (h h' : Heap T) (a : Nat)
    (hok : create ctor p args st h = Except.ok (st', h', a)) :
    st.created = false ∧ a = h.next ∧
      st' = ⟨true, Function.update st.instance_ptr p (some h.next)⟩ ∧
      ∃ v, ctor args = some v ∧
        h' = ⟨h.next + 1, Function.update h.mem h.next (some v)⟩ := by
  by_cases hflag : st.created = false
  · cases hc : ctor args with
    | none =>
      have herr : create ctor p args st h =
          Except.error SingErr.constructor_exception := by
        simp [create, detect_already_created, hflag, hc]
      rw [herr] at hok
      exact Except.noConfusion hok
    | some v =>
      rw [create_eq_ok ctor p args st h v hflag hc] at hok
      simp only [Except.ok.injEq, Prod.mk.injEq] at hok
      exact ⟨hflag, hok.2.2.symm, hok.1.symm, v, rfl, hok.2.1.symm⟩
  · have hflag' : st.created = true := by
      cases hcr : st.created with
      | false => exact absurd hcr hflag
      | true => rfl
    rw [create_eq_error ctor p args st h hflag'] at hok
    exact Except.noConfusion hok

theorem destroy_ok_inversion {T P : Type} [DecidableEq P]
    (p : P) (st st' : SingState P) (h h' : Heap T)
    (hok : destroy p st h = Except.ok (st', h')) :
    st.created = true ∧ ∃ a, st.instance_ptr p = some a ∧
      st' = ⟨false, Function.update st.instance_ptr p none⟩ ∧
      h' = ⟨h.next, Function.update h.mem a none⟩ := by
  by_cases hflag : st.created = true
  · cases hs : st.instance_ptr p with
    | none =>
      have herr : destroy p st h =
          Except.error SingErr.destroy_on_incorrect_threading := by
        simp [destroy, hflag, hs]
      rw [herr] at hok
      exact Except.noConfusion hok
    | some a =>
      rw [destroy_eq_ok p st h a hflag hs] at hok
      simp only [Except.ok.injEq, Prod.mk.injEq] at hok
      exact ⟨hflag, a, rfl, hok.1.symm, hok.2.symm⟩
  · have hflag' : st.created = false := by
      cases hcr : st.created with
      | false => rfl
      | true => exact absurd hcr hflag
    have herr : destroy p st h = Except.error SingErr.already_destroyed := by
      simp [destroy, hflag']
    rw [herr] at hok
    exact Except.noConfusion hok

/-- C1: when the creation flag of `T` is clear, `create` — for any policy
`p` and any constructor overload with its arguments — allocates a fresh
heap address holding exactly the value `T`'s constructor produces from
the forwarded arguments, stores that address in the slot of `(T, p)`
while touching no other slot or heap cell, sets the creation flag, and
returns the address of the new instance. -/
theorem create_success_spec {T P A : Type} [DecidableEq P]
    (ctor : A → Option T) (p : P) (args : A) (v : T)
    (st : SingState P) (h : Heap T) (hwf : h.wf)
    (hflag : st.created = false) (hc : ctor args = some v) :
    ∃ st' h' a, create ctor p args st h = Except.ok (st', h', a) ∧
      h'.mem a = some v ∧ h.mem a = none ∧
      st'.instance_ptr p = some a ∧ st'.created = true ∧
      (∀ q, q ≠ p → st'.instance_ptr q = st.instance_ptr q) ∧
      ∀ b, b ≠ a → h'.mem b = h.mem b := by
  refine ⟨_, _, h.next, create_eq_ok ctor p args st h v hflag hc,
    ?_, ?_, ?_, rfl, ?_, ?_⟩
  · show Function.update h.mem h.next (some v) h.next = some v
    rw [Function.update_same]
  · exact hwf h.next le_rfl
  · show Function.update st.instance_ptr p (some h.next) p = some h.next
    rw [Function.update_same]
  · intro q hq
    show Function.update st.instance_ptr p (some h.next) q = st.instance_ptr q
    rw [Function.update_noteq hq]
  · intro b hb
    show Function.update h.mem h.next (some v) b = h.mem b
    rw [Function.update_noteq hb]

/-- Witness for C1: a concrete successful `create` on the initial state
(managed type `Nat`, policy `true` of `Bool`, zero-argument overload). -/
theorem create_success_spec_witness :
    (initHeap : Heap Nat).wf ∧ (initState : SingState Bool).created = false ∧
      (fun _ : Unit => some (42 : Nat)) () = some 42 ∧
      ∃ st' h' a, create (fun _ : Unit => some (42 : Nat)) true () initState
          initHeap = Except.ok (st', h', a) ∧
        h'.mem a = some 42 ∧ (initHeap : Heap Nat).mem a = none ∧
        st'.instance_ptr true = some a ∧ st'.created = true ∧
        (∀ q, q ≠ true →
          st'.instance_ptr q = (initState : SingState Bool).instance_ptr q) ∧
        ∀ b, b ≠ a → h'.mem b = (initHeap : Heap Nat).mem b :=
  ⟨fun _ _ => rfl, rfl, rfl,
    create_success_spec (fun _ : Unit => some 42) true () 42 initState initHeap
      (fun _ _ => rfl) rfl rfl⟩

/-- C3: while the creation flag of `T` is set, `create` through any
policy and any constructor overload/arguments raises the distinct
`already_created` exception from `detect_already_created`, and since the
exception propagates before anything is written, the flag, every slot and
the heap stay exactly as they were (so the live instance is untouched). -/
theorem create_already_created_spec {T P A : Type} [DecidableEq P]
    (ctor : A → Option T) (p : P) (args : A)
    (st : SingState P) (h : Heap T) (hflag : st.created = true) :
    detect_already_created st = some SingErr.already_created ∧
      create ctor p args st h = Except.error SingErr.already_created ∧
      stepCreate ctor p args (st, h) = (st, h) := by
  refine ⟨?_, create_eq_error ctor p args st h hflag, ?_⟩
  · simp [detect_already_created, hflag]
  · simp [stepCreate, create_eq_error ctor p args st h hflag]

/-- Witness for C3: a second `create` (different policy and argument
list) on the state holding one live instance. -/
theorem create_already_created_witness :
    demoAlive.1.created = true ∧
      (detect_already_created demoAlive.1 = some SingErr.already_created ∧
        create (fun n : Nat => some n) false 7 demoAlive.1 demoAlive.2 =
          Except.error SingErr.already_created ∧
        stepCreate (fun n : Nat => some n) false 7 (demoAlive.1, demoAlive.2) =
          (demoAlive.1, demoAlive.2)) :=
  ⟨rfl, create_already_created_spec (fun n : Nat => some n) false 7
    demoAlive.1 demoAlive.2 rfl⟩

/-- C4: while the creation flag of `T` is clear — whether no `create`
ever ran or a successful `destroy` just completed — `destroy` through any
policy raises the distinct `already_destroyed` exception and leaves the
flag, every slot and the heap unchanged. -/
theorem destroy_already_destroyed_spec {T P : Type} [DecidableEq P]
    (p : P) (st : SingState P) (h : Heap T) (hflag : st.created = false) :
    destroy p st h = Except.error SingErr.already_destroyed ∧
      stepDestroy p (st, h) = (st, h) := by
  constructor
  · simp [destroy, hflag]
  · simp [stepDestroy, destroy, hflag]

/-- Witness for C4: `destroy` on the freshly initialised state, before
any `create`. -/
theorem destroy_already_destroyed_witness :
    (initState : SingState Bool).created = false ∧
      (destroy true (initState : SingState Bool) (initHeap : Heap Nat) =
          Except.error SingErr.already_destroyed ∧
        stepDestroy true ((initState : SingState Bool),
          (initHeap : Heap Nat)) = (initState, initHeap)) :=
  ⟨rfl, destroy_already_destroyed_spec true initState initHeap rfl⟩

/-- C2: in any reachable state where the creation flag of `T` is set and
the slot of `(T, p)` holds an address, `destroy` through policy `p`
deallocates the object at that address, clears the slot and the flag, no
object created through the mechanism remains alive anywhere in the heap,
and a subsequent `create` (any policy, any overload that constructs)
succeeds. -/
theorem destroy_success_spec {T P : Type} [DecidableEq P]
    (p : P) (a : Nat) (s : SingState P × Heap T)
    (hr : Reach s) (hflag : s.1.created = true)
    (hslot : s.1.instance_ptr p = some a) :
    ∃ st' h', destroy p s.1 s.2 = Except.ok (st', h') ∧
      h'.mem a = none ∧ st'.instance_ptr p = none ∧ st'.created = false ∧
      (∀ q, st'.instance_ptr q = none) ∧
      (∀ b, h'.mem b = none) ∧
      ∀ (A : Type) (ctor : A → Option T) (q : P) (args : A) (v : T),
        ctor args = some v → ∃ r, create ctor q args st' h' = Except.ok r := by
  obtain ⟨hwf, hcases⟩ := reach_inv s hr
  rcases hcases with ⟨hf, _, _⟩ | ⟨_, p0, a0, hp0, hothers, _, honly⟩
  · rw [hflag] at hf; cases hf
  · have hpp0 : p = p0 := by
      by_contra hne
      rw [hothers p hne] at hslot; cases hslot
    subst hpp0
    have haa0 : a = a0 := by
      rw [hslot] at hp0; exact Option.some.inj hp0
    subst haa0
    refine ⟨_, _, destroy_eq_ok p s.1 s.2 a hflag hslot, ?_, ?_, rfl, ?_, ?_, ?_⟩
    · show Function.update s.2.mem a none a = none
      rw [Function.update_same]
    · show Function.update s.1.instance_ptr p none p = none
      rw [Function.update_same]
    · intro q
      show Function.update s.1.instance_ptr p none q = none
      by_cases hq : q = p
      · subst hq; rw [Function.update_same]
      · rw [Function.update_noteq hq]; exact hothers q hq
    · intro b
      show Function.update s.2.mem a none b = none
      by_cases hba : b = a
      · subst hba; rw [Function.update_same]
      · rw [Function.update_noteq hba]; exact honly b hba
    · intro A ctor q args v hc
      exact ⟨_, create_eq_ok ctor q args _ _ v rfl hc⟩

/-- Witness for C2: destroying the one live instance of the concrete
demonstration state reached by a single `create`. -/
theorem destroy_success_spec_witness :
    demoAlive.1.created = true ∧ demoAlive.1.instance_ptr true = some 0 ∧
      ∃ st' h', destroy true demoAlive.1 demoAlive.2 = Except.ok (st', h') ∧
        h'.mem 0 = none ∧ st'.instance_ptr true = none ∧
        st'.created = false ∧
        (∀ q, st'.instance_ptr q = none) ∧
        (∀ b, h'.mem b = none) ∧
        ∀ (A : Type) (ctor : A → Option Nat) (q : Bool) (args : A) (v : Nat),
          ctor args = some v → ∃ r, create ctor q args st' h' = Except.ok r :=
  ⟨rfl, rfl, destroy_success_spec true 0 demoAlive
    (Reach.create_step (fun _ : Unit => some (42 : Nat)) true () Reach.init)
    rfl rfl⟩

/-- C5: from a quiescent state (flag clear, the slot of policy `q` empty,
as in every reachable idle state), after a successful `create` under
policy `p`, a `destroy` under a different policy `q` raises the distinct
`destroy_on_incorrect_threading` exception and changes nothing: the
instance created under `p` stays alive at its address, and a `destroy`
under `p` still succeeds afterwards. -/
theorem destroy_incorrect_policy_spec {T P A : Type} [DecidableEq P]
    (ctor : A → Option T) (p q : P) (args : A) (v : T)
    (st : SingState P) (h : Heap T)
    (hpq : q ≠ p) (hflag : st.created = false)
    (hq : st.instance_ptr q = none) (hc : ctor args = some v) :
    ∃ st' h' a, create ctor p args st h = Except.ok (st', h', a) ∧
      destroy q st' h' = Except.error SingErr.destroy_on_incorrect_threading ∧
      stepDestroy q (st', h') = (st', h') ∧
      h'.mem a = some v ∧ st'.instance_ptr p = some a ∧
      ∃ st'' h'', destroy p st' h' = Except.ok (st'', h'') ∧
        st''.created = false ∧ st''.instance_ptr p = none := by
  have hq' : Function.update st.instance_ptr p (some h.next) q = none := by
    rw [Function.update_noteq hpq]; exact hq
  have hp' : Function.update st.instance_ptr p (some h.next) p = some h.next :=
    Function.update_same p (some h.next) st.instance_ptr
  refine ⟨_, _, h.next, create_eq_ok ctor p args st h v hflag hc,
    ?_, ?_, ?_, hp', ?_⟩
  · simp [destroy, hq']
  · simp [stepDestroy, destroy, hq']
  · show Function.update h.mem h.next (some v) h.next = some v
    rw [Function.update_same]
  · refine ⟨_, _, destroy_eq_ok p _ _ h.next rfl hp', rfl, ?_⟩
    show Function.update (Function.update st.instance_ptr p (some h.next))
      p none p = none
    rw [Function.update_same]

/-- Witness for C5: create under policy `true`, destroy under policy
`false`, starting from the initial state. -/
theorem destroy_incorrect_policy_witness :
    false ≠ true ∧ (initState : SingState Bool).created = false ∧
      (initState : SingState Bool).instance_ptr false = none ∧
      (fun _ : Unit => some (42 : Nat)) () = some 42 ∧
      ∃ st' h' a, create (fun _ : Unit => some (42 : Nat)) true () initState
          initHeap = Except.ok (st', h', a) ∧
        destroy false st' h' =
          Except.error SingErr.destroy_on_incorrect_threading ∧
        stepDestroy false (st', h') = (st', h') ∧
        h'.mem a = some 42 ∧ st'.instance_ptr true = some a ∧
        ∃ st'' h'', destroy true st' h' = Except.ok (st'', h'') ∧
          st''.created = false ∧ st''.instance_ptr true = none :=
  ⟨Bool.false_ne_true, rfl, rfl, rfl,
    destroy_incorrect_policy_spec (fun _ : Unit => some 42) true false () 42
      initState initHeap Bool.false_ne_true rfl rfl rfl⟩

/-- C6: the lifecycle invariants.  I1: a `create` call changes the
creation flag only false-to-true and only when it succeeds, and a
`destroy` call changes it only true-to-false and only when it succeeds.
I2: in every reachable state with the flag set, exactly one slot — the
slot of the policy used by the successful `create`, as the last conjunct
pins down — holds an address, and every other slot is empty. -/
theorem lifecycle_invariants {T P : Type} [DecidableEq P] :
    (∀ (s : SingState P × Heap T) (A : Type) (ctor : A → Option T) (p : P)
        (args : A),
        (stepCreate ctor p args s).1.created ≠ s.1.created →
          s.1.created = false ∧ (stepCreate ctor p args s).1.created = true ∧
            ∃ r, create ctor p args s.1 s.2 = Except.ok r) ∧
    (∀ (s : SingState P × Heap T) (p : P),
        (stepDestroy p s).1.created ≠ s.1.created →
          s.1.created = true ∧ (stepDestroy p s).1.created = false ∧
            ∃ r, destroy p s.1 s.2 = Except.ok r) ∧
    (∀ s : SingState P × Heap T, Reach s → s.1.created = true →
        ∃ p a, s.1.instance_ptr p = some a ∧
          ∀ q, q ≠ p → s.1.instance_ptr q = none) ∧
    ∀ (s : SingState P × Heap T) (A : Type) (ctor : A → Option T) (p : P)
        (args : A) (st' : SingState P) (h' : Heap T) (a : Nat),
        Reach s → create ctor p args s.1 s.2 = Except.ok (st', h', a) →
          st'.instance_ptr p = some a ∧
            ∀ q, q ≠ p → st'.instance_ptr q = none := by
  refine ⟨?_, ?_, ?_, ?_⟩
  · intro s A ctor p args hne
    cases hc : create ctor p args s.1 s.2 with
    | error e =>
      have hstep : stepCreate ctor p args s = s := by
        simp [stepCreate, hc]
      rw [hstep] at hne
      exact absurd rfl hne
    | ok r =>
      obtain ⟨hf, _, hst, _, _, _⟩ :=
        create_ok_inversion ctor p args s.1 r.1 s.2 r.2.1 r.2.2 hc
      have hstep : stepCreate ctor p args s = (r.1, r.2.1) := by
        simp [stepCreate, hc]
      rw [hstep]
      exact ⟨hf, by rw [hst], r, rfl⟩
  · intro s p hne
    cases hc : destroy p s.1 s.2 with
    | error e =>
      have hstep : stepDestroy p s = s := by
        simp [stepDestroy, hc]
      rw [hstep] at hne
      exact absurd rfl hne
    | ok r =>
      obtain ⟨hf, _, _, hst, _⟩ :=
        destroy_ok_inversion p s.1 r.1 s.2 r.2 hc
      have hstep : stepDestroy p s = r := by
        simp [stepDestroy, hc]
      rw [hstep]
      exact ⟨hf, by rw [hst], r, rfl⟩
  · intro s hr hflag
    obtain ⟨_, hcases⟩ := reach_inv s hr
    rcases hcases with ⟨hf, _, _⟩ | ⟨_, p, a, hp, hothers, _, _⟩
    · rw [hflag] at hf; cases hf
    · exact ⟨p, a, hp, hothers⟩
  · intro s A ctor p args st' h' a hr hok
    obtain ⟨hf, ha, hst, _, _, _⟩ :=
      create_ok_inversion ctor p args s.1 st' s.2 h' a hok
    obtain ⟨_, hcases⟩ := reach_inv s hr
    obtain ⟨_, hslots, _⟩ :
        s.1.created = false ∧ (∀ q, s.1.instance_ptr q = none) ∧
          ∀ b, s.2.mem b = none := by
      rcases hcases with hleft | ⟨htrue, _⟩
      · exact hleft
      · rw [hf] at htrue; cases htrue
    subst ha
    rw [hst]
    constructor
    · show Function.update s.1.instance_ptr p (some s.2.next) p = some s.2.next
      rw [Function.update_same]
    · intro q hq
      show Function.update s.1.instance_ptr p (some s.2.next) q = none
      rw [Function.update_noteq hq]
      exact hslots q

/-- Witness for C6: the I2 conjunct evaluated on the concrete reachable
state holding one live instance. -/
theorem lifecycle_invariants_witness :
    demoAlive.1.created = true ∧
      ∃ p a, demoAlive.1.instance_ptr p = some a ∧
        ∀ q, q ≠ p → demoAlive.1.instance_ptr q = none :=
  ⟨rfl, (lifecycle_invariants (T := Nat) (P := Bool)).2.2.1 demoAlive
    (Reach.create_step (fun _ : Unit => some (42 : Nat)) true () Reach.init)
    rfl⟩

/-- C7: the round trip.  From a clear flag, `create(args)` succeeds, the
following `destroy()` succeeds, and a second `create(args)` succeeds
again — at a fresh address, distinct from the first and unoccupied after
the destroy, whose content is recomputed by `T`'s constructor from the
arguments rather than reused from the destroyed instance. -/
theorem create_destroy_create_spec {T P A : Type} [DecidableEq P]
    (ctor : A → Option T) (p : P) (args : A) (v : T)
    (st : SingState P) (h : Heap T) (hwf : h.wf)
    (hflag : st.created = false) (hc : ctor args = some v) :
    ∃ st1 h1 a1, create ctor p args st h = Except.ok (st1, h1, a1) ∧
      ∃ st2 h2, destroy p st1 h1 = Except.ok (st2, h2) ∧
        ∃ st3 h3 a2, create ctor p args st2 h2 = Except.ok (st3, h3, a2) ∧
          a2 ≠ a1 ∧ h2.mem a2 = none ∧ h3.mem a2 = some v ∧
          st3.instance_ptr p = some a2 := by
  have hslot1 : Function.update st.instance_ptr p (some h.next) p =
      some h.next :=
    Function.update_same p (some h.next) st.instance_ptr
  refine ⟨_, _, h.next, create_eq_ok ctor p args st h v hflag hc,
    _, _, destroy_eq_ok p _ _ h.next rfl hslot1,
    _, _, _, create_eq_ok ctor p args _ _ v rfl hc, ?_, ?_, ?_, ?_⟩
  · show h.next + 1 ≠ h.next
    omega
  · show Function.update (Function.update h.mem h.next (some v)) h.next none
      (h.next + 1) = none
    rw [Function.update_noteq (by omega : h.next + 1 ≠ h.next)]
    rw [Function.update_noteq (by omega : h.next + 1 ≠ h.next)]
    exact hwf (h.next + 1) (by omega)
  · show Function.update
      (Function.update (Function.update h.mem h.next (some v)) h.next none)
      (h.next + 1) (some v) (h.next + 1) = some v
    rw [Function.update_same]
  · show Function.update
      (Function.update (Function.update st.instance_ptr p (some h.next)) p none)
      p (some (h.next + 1)) p = some (h.next + 1)
    rw [Function.update_same]

/-- Witness for C7: the concrete round trip from the initial state. -/
theorem create_destroy_create_witness :
    (initHeap : Heap Nat).wf ∧ (initState : SingState Bool).created = false ∧
      (fun _ : Unit => some (42 : Nat)) () = some 42 ∧
      ∃ st1 h1 a1, create (fun _ : Unit => some (42 : Nat)) true () initState
          initHeap = Except.ok (st1, h1, a1) ∧
        ∃ st2 h2, destroy true st1 h1 = Except.ok (st2, h2) ∧
          ∃ st3 h3 a2, create (fun _ : Unit => some (42 : Nat)) true () st2 h2 =
              Except.ok (st3, h3, a2) ∧
            a2 ≠ a1 ∧ h2.mem a2 = none ∧ h3.mem a2 = some 42 ∧
            st3.instance_ptr true = some a2 :=
  ⟨fun _ _ => rfl, rfl, rfl,
    create_destroy_create_spec (fun _ : Unit => some 42) true () 42 initState
      initHeap (fun _ _ => rfl) rfl rfl⟩

/-- C8: the creation flag is keyed only by `T` and the slot only by
`(T, policy)`; neither depends on the argument-list selector.  In the
embedding `SingState` carries no argument-list index and `destroy` takes
none (mirroring that `singularity_state<T>` and
`singularity_instance<T, M>` are independent of the `A0..An` parameters
of `singularity`), so a `create` through one overload followed by a
`destroy` issued from any other argument-list instantiation of the same
policy operates on the same flag and slot and succeeds, while a further
`create` through any policy and any other overload while the instance is
alive reports `already_created`. -/
theorem keyed_by_type_and_policy {T P A1 A2 : Type} [DecidableEq P]
    (ctor1 : A1 → Option T) (ctor2 : A2 → Option T)
    (p q : P) (x : A1) (y : A2) (v : T)
    (st : SingState P) (h : Heap T)
    (hflag : st.created = false) (hc : ctor1 x = some v) :
    ∃ st1 h1 a, create ctor1 p x st h = Except.ok (st1, h1, a) ∧
      create ctor2 q y st1 h1 = Except.error SingErr.already_created ∧
      ∃ r, destroy p st1 h1 = Except.ok r := by
  refine ⟨_, _, h.next, create_eq_ok ctor1 p x st h v hflag hc, ?_, ?_⟩
  · exact create_eq_error ctor2 q y _ _ rfl
  · exact ⟨_, destroy_eq_ok p _ _ h.next rfl
      (Function.update_same p (some h.next) st.instance_ptr)⟩

/-- Witness for C8: create through the zero-argument overload, reject a
create through the one-argument overload under the other policy, destroy
through the same policy as the create. -/
theorem keyed_by_type_and_policy_witness :
    (initState : SingState Bool).created = false ∧
      (fun _ : Unit => some (42 : Nat)) () = some 42 ∧
      ∃ st1 h1 a, create (fun _ : Unit => some (42 : Nat)) true () initState
          initHeap = Except.ok (st1, h1, a) ∧
        create (fun n : Nat => some n) false 7 st1 h1 =
          Except.error SingErr.already_created ∧
        ∃ r, destroy true st1 h1 = Except.ok r :=
  ⟨rfl, rfl,
    keyed_by_type_and_policy (fun _ : Unit => some 42) (fun n : Nat => some n)
      true false () 7 42 initState initHeap rfl rfl⟩

/-- C10: when `T`'s constructor itself throws inside `create`, the
exception propagates to the caller before the slot or the flag is
written: the static state and the heap are untouched, and a later
`create` with an overload whose construction succeeds still succeeds. -/
theorem create_constructor_throws_spec {T P A : Type} [DecidableEq P]
    (ctor : A → Option T) (p : P) (args : A)
    (st : SingState P) (h : Heap T)
    (hflag : st.created = false) (hfail : ctor args = none) :
    create ctor p args st h = Except.error SingErr.constructor_exception ∧
      stepCreate ctor p args (st, h) = (st, h) ∧
      ∀ (B : Type) (ctor2 : B → Option T) (q : P) (y : B) (v : T),
        ctor2 y = some v → ∃ r, create ctor2 q y st h = Except.ok r := by
  have herr : create ctor p args st h =
      Except.error SingErr.constructor_exception := by
    simp [create, detect_already_created, hflag, hfail]
  refine ⟨herr, ?_, ?_⟩
  · simp [stepCreate, herr]
  · intro B ctor2 q y v hc
    exact ⟨_, create_eq_ok ctor2 q y st h v hflag hc⟩

/-- Witness for C10: a throwing zero-argument constructor on the initial
state, followed by a succeeding one. -/
theorem create_constructor_throws_witness :
    (initState : SingState Bool).created = false ∧
      (fun _ : Unit => (none : Option Nat)) () = none ∧
      (create (fun _ : Unit => (none : Option Nat)) true () initState initHeap =
          Except.error SingErr.constructor_exception ∧
        stepCreate (fun _ : Unit => (none : Option Nat)) true ()
          (initState, initHeap) = (initState, initHeap) ∧
        ∀ (B : Type) (ctor2 : B → Option Nat) (q : Bool) (y : B) (v : Nat),
          ctor2 y = some v →
            ∃ r, create ctor2 q y initState initHeap = Except.ok r) :=
  ⟨rfl, rfl,
    create_constructor_throws_spec (fun _ : Unit => (none : Option Nat)) true ()
      initState initHeap rfl rfl⟩

end Singularity
